import Mathlib

/-!
Verification of the fleet-scan core of the Btctoolkit miner manager.

The definitions below are a shallow embedding of the Python sources:
- miner_app/core/scanner.py : hashrate normalization, row projection,
  scan_network, reboot_miners, send_pool_config;
- miner_app/ui/app.py : the scan / monitor concurrency control
  (_on_scan, _start_scan, _scan_done, _on_monitor_toggle, _monitor_loop)
  and the status-tag classification of _update_table.

Modelling conventions:
- Python floats are modelled as exact rationals.
- A fallible attribute read or awaited call is an Except value; the
  asyncio.gather calls with return_exceptions=True deliver results in
  input order, which the embedding renders as List.map over the input.
- Python dicts keyed by ip are association lists with insertion-order
  semantics: assigning to an existing key updates it in place, a new key
  is appended (dictInsert below).
- str.upper / str.lower / str.strip are modelled on the character list.
-/

namespace MinerApp

/-- Model of Python str.upper (ASCII). -/
def pyUpper (s : String) : String := ⟨s.data.map Char.toUpper⟩

/-- Model of Python str.lower (ASCII). -/
def pyLower (s : String) : String := ⟨s.data.map Char.toLower⟩

/-- Model of Python str.strip. -/
def pyStrip (s : String) : String :=
  ⟨((s.data.dropWhile Char.isWhitespace).reverse.dropWhile Char.isWhitespace).reverse⟩

/-- Occurrence test on character lists, model of the Python operator (pat in s). -/
def listContains (pat : List Char) : List Char → Bool
  | [] => pat.isEmpty
  | c :: t => pat.isPrefixOf (c :: t) || listContains pat t

/-- Model of the Python substring test (pat in s). -/
def strContains (s pat : String) : Bool := listContains pat.data s.data

/-- A hashrate reading as delivered by pyasic: vendor-native rate plus a unit
string.  rate = none models a value on which float() raises. -/
structure HashRate where
  rate : Option ℚ
  unit : String

/-- One entry of MinerData.pools (pyasic PoolMetrics): optional url and user,
optional active and alive flags (None models an absent reading). -/
structure Pool where
  url : Option String
  user : Option String
  active : Option Bool
  alive : Option Bool

/-- The fields of pyasic MinerData read by scanner.py.  is_mining is an
attribute read that can raise (Except.error) or deliver the flag. -/
structure MinerData where
  hashrate : Option HashRate
  is_mining : Except Unit Bool
  model : Option String
  make : Option String
  temperature_avg : Option ℚ
  pools : List Pool

/-- One pool entry of a pyasic MinerConfig mining_mode.pools list. -/
structure PoolCfg where
  url : String
  user : String
  password : String

/-- cfg.mining_mode: pools = none models a mining mode without a pools
attribute (the hasattr(mm, "pools") test fails). -/
structure MiningMode where
  pools : Option (List PoolCfg)

/-- A pyasic MinerConfig: mining_mode = none models a config whose
mining_mode attribute is absent or None. -/
structure Config where
  mining_mode : Option MiningMode

/-- A discovered device handle: its address, its class name, and the
outcome of each awaitable capability used by scanner.py.  Exceptions
raised by a capability are Except.error values. -/
structure Miner where
  ip : String
  typeName : String
  get_data : Except String MinerData
  reboot : Except String Unit
  get_config : Except String Config
  send_config : Config → Except String Unit

/-- One dict appended to all_pools in scan_network's pool loop. -/
structure PoolEntry where
  index : Nat
  url : String
  user : String
  active : Option Bool
  alive : Option Bool
deriving DecidableEq

/-- The MinerRow dataclass (hashrate_str, a display-only formatted string,
is not modelled; no verified property mentions it). -/
structure MinerRow where
  ip : String
  status : String
  miner_type : String
  hashrate_ths : ℚ
  temperature : String
  pool1_url : String
  worker : String
  miner_obj : Miner
  data_obj : Option MinerData
  all_pools : List PoolEntry

/-- The factor dict of hashrate_to_ths, keyed by the uppercased unit. -/
def factors : List (String × ℚ) :=
  [("H/S", 1/1000000000000), ("KH/S", 1/1000000000), ("MH/S", 1/1000000),
   ("GH/S", 1/1000), ("TH/S", 1), ("PH/S", 1000)]

/-- hashrate_to_ths from scanner.py: 0.0 for an absent hashrate, 0.0 when
float(hr.rate) raises, otherwise rate times the factor found under the
uppercased unit, defaulting to 1.0 for an unrecognized unit. -/
def hashrate_to_ths (data : MinerData) : ℚ :=
  match data.hashrate with
  | none => 0
  | some hr =>
    match hr.rate with
    | none => 0
    | some rate => rate * ((List.lookup (pyUpper hr.unit) factors).getD 1)

/-- The all_pools list built by the pool loop of scan_network. -/
def mkPoolEntries (pools : List Pool) : List PoolEntry :=
  (List.enum pools).map fun ip =>
    { index := ip.1, url := ip.2.url.getD "", user := ip.2.user.getD "",
      active := ip.2.active, alive := ip.2.alive }

/-- Truthiness of p.get("active") for an entry of all_pools: only an
explicit True is truthy (False and None are falsy). -/
def isTruthyActive (p : PoolEntry) : Bool := p.active == some true

/-- next((p for p in all_pools if p.get("active")), None), falling back to
all_pools[0] when no entry is marked active. -/
def pickActive (all : List PoolEntry) : Option PoolEntry :=
  match all.find? isTruthyActive with
  | some p => some p
  | none => all.head?

/-- The (pool1_url, worker, all_pools) triple computed by scan_network:
"N/A" defaults when data.pools is empty, otherwise the first active entry
(or the first entry), with empty url or user falling back to "N/A". -/
def poolFields (pools : List Pool) : String × String × List PoolEntry :=
  match pools with
  | [] => ("N/A", "N/A", [])
  | _ :: _ =>
    let all := mkPoolEntries pools
    match pickActive all with
    | none => ("N/A", "N/A", all)
    | some ap =>
      (if ap.url = "" then "N/A" else ap.url,
       if ap.user = "" then "N/A" else ap.user,
       all)

/-- The row built by scan_network for a miner whose get_data succeeded. -/
def rowOfData (m : Miner) (data : MinerData) : MinerRow :=
  let status :=
    match data.is_mining with
    | .ok b => if b then "Minando" else "Parado"
    | .error _ => "OK"
  let model :=
    match data.model with
    | some s => if s = "" then m.typeName else s
    | none => m.typeName
  let make := data.make.getD ""
  let display_type :=
    if make ≠ "" ∧ model ≠ "" then pyStrip (make ++ " " ++ model)
    else if model ≠ "" then model else m.typeName
  let temp :=
    match data.temperature_avg with
    | some t => toString t ++ "°C"
    | none => "N/A"
  let pf := poolFields data.pools
  { ip := m.ip, status := status, miner_type := display_type,
    hashrate_ths := hashrate_to_ths data, temperature := temp,
    pool1_url := pf.1, worker := pf.2.1,
    miner_obj := m, data_obj := some data, all_pools := pf.2.2 }

/-- The row built by scan_network for a miner whose get_data raised. -/
def errorRow (m : Miner) : MinerRow :=
  { ip := m.ip, status := "Error", miner_type := m.typeName,
    hashrate_ths := 0, temperature := "N/A", pool1_url := "N/A",
    worker := "N/A", miner_obj := m, data_obj := none, all_pools := [] }

/-- The isinstance(result, Exception) dispatch of scan_network's row loop. -/
def rowOfResult (m : Miner) (res : Except String MinerData) : MinerRow :=
  match res with
  | .error _ => errorRow m
  | .ok data => rowOfData m data

/-- scan_network: the scanResult argument is the combined outcome of
MinerNetwork.from_subnet + network.scan() (error = either raised).  The
first component collects the progress_cb messages in emission order, the
second is the returned row list.  gather(..., return_exceptions=True)
preserves input order, rendered as List.map. -/
def scan_network (subnet : String) (scanResult : Except String (List Miner)) :
    List String × List MinerRow :=
  match scanResult with
  | .error e =>
    (["Escaneando " ++ subnet ++ "...", "Error al escanear: " ++ e], [])
  | .ok miners =>
    if miners.isEmpty then
      (["Escaneando " ++ subnet ++ "...", "No se encontraron miners."], [])
    else
      let rows := miners.map (fun m => rowOfResult m m.get_data)
      (["Escaneando " ++ subnet ++ "...",
        "Encontrados " ++ toString miners.length ++ " miners. Obteniendo datos...",
        "✅ Completado: " ++ toString rows.length ++ " miners procesados."],
       rows)

/-- The fleet total sum(r.hashrate_ths for r in rows) of _update_table. -/
def total_ths (rows : List MinerRow) : ℚ :=
  (rows.map MinerRow.hashrate_ths).sum

/-- The status-tag classification of _update_table: lowercased status
containing "mina" is tagged mining, else "error"/"fail" error, else "para"
stopped, else the striping tag. -/
def rowTag (status : String) (idx : Nat) : String :=
  let sl := pyLower status
  if strContains sl "mina" then "mining"
  else if strContains sl "error" || strContains sl "fail" then "error"
  else if strContains sl "para" then "stopped"
  else if idx % 2 == 0 then "even" else "odd"

/-- Python dict assignment results[k] = v on an insertion-ordered dict. -/
def dictInsert (d : List (String × String)) (k v : String) :
    List (String × String) :=
  if d.any (fun p => p.1 == k) then
    d.map (fun p => if p.1 == k then (k, v) else p)
  else d ++ [(k, v)]

/-- The string stored into results by _reboot / _send. -/
def outcomeStr (r : Except String Unit) : String :=
  match r with
  | .ok _ => "OK"
  | .error e => "Error: " ++ e

/-- reboot_miners: concurrent fan-out of _reboot closures, each storing
"OK" or "Error: ..." under the miner's ip.  Completion order is modelled
as input order; every fact proved below is order-insensitive. -/
def reboot_miners (miners : List Miner) : List (String × String) :=
  miners.foldl (fun results m => dictInsert results m.ip (outcomeStr m.reboot)) []

/-- One entry of the pools argument of send_pool_config. -/
structure PoolSpec where
  url : String
  user : String
  password : String

/-- MiningPoolConfig(url=..., user=..., password=p.get("password","x") or "x"). -/
def toMiningPoolConfig (p : PoolSpec) : PoolCfg :=
  { url := p.url, user := p.user,
    password := if p.password = "" then "x" else p.password }

/-- The config mutation of _send: when mining_mode exposes a pools list and
the filtered pool list is non-empty, mm.pools is replaced; otherwise the
config is left untouched. -/
def updatedConfig (cfg : Config) (pool_list : List PoolSpec) : Config :=
  match cfg.mining_mode with
  | none => cfg
  | some mm =>
    match mm.pools with
    | none => cfg
    | some _ =>
      let new_pools := pool_list.map toMiningPoolConfig
      if new_pools.isEmpty then cfg
      else { cfg with mining_mode := some { mm with pools := some new_pools } }

/-- Whether a config exposes a pool list (mining_mode present with a pools
attribute). -/
def exposesPools (cfg : Config) : Bool :=
  match cfg.mining_mode with
  | none => false
  | some mm => mm.pools.isSome

/-- The body of _send for one miner: get_config, mutate, send_config, with
every exception captured as that miner's outcome string. -/
def sendOutcome (m : Miner) (pools : List PoolSpec) : String :=
  let pool_list := pools.filter (fun p => !(pyStrip p.url == ""))
  match m.get_config with
  | .error e => "Error: " ++ e
  | .ok cfg =>
    match m.send_config (updatedConfig cfg pool_list) with
    | .ok _ => "OK"
    | .error e => "Error: " ++ e

/-- send_pool_config: concurrent fan-out of _send closures, one outcome
stored per ip.  Completion order modelled as input order. -/
def send_pool_config (miners : List Miner) (pools : List PoolSpec) :
    List (String × String) :=
  miners.foldl (fun results m => dictInsert results m.ip (sendOutcome m pools)) []

/-- Generic accumulator form shared by reboot_miners and send_pool_config. -/
def insFold (f : Miner → String) (d : List (String × String))
    (miners : List Miner) : List (String × String) :=
  miners.foldl (fun results m => dictInsert results m.ip (f m)) d

/-- Which pipeline produced a scan currently in flight. -/
inductive ScanSource where
  | manual
  | monitor
deriving DecidableEq

/-- The concurrency-relevant state of MiningManagerApp: the _scan_running
flag, the _monitor_active flag, the multiset of scan pipelines currently
executing scan_network, and the last status-bar message. -/
structure AppState where
  scan_running : Bool
  monitor_active : Bool
  in_flight : List ScanSource
  status : String
deriving DecidableEq

/-- The state set up by MiningManagerApp.__init__. -/
def appInit : AppState :=
  { scan_running := false, monitor_active := false, in_flight := [],
    status := "Listo." }

/-- The rejection signal emitted by _on_scan while _scan_running is set. -/
def rejectionMsg : String := "⚠️  Ya hay un escaneo en curso..."

/-- Observable events of the scan / monitor machinery. -/
inductive Event where
  | onScan
  | scanDone
  | monitorToggle
  | monitorCycleBegin
  | monitorCycleEnd
deriving DecidableEq

/-- One step of the UI concurrency machine, straight from app.py:
- onScan (_on_scan): rejected with rejectionMsg when _scan_running is set;
  otherwise _start_scan sets the flag and launches a manual scan thread
  (the interpolated subnet of the status text is elided);
- scanDone (_scan_done): clears the flag when the manual scan finishes;
- monitorToggle (_on_monitor_toggle): flips _monitor_active; it neither
  reads nor writes _scan_running;
- monitorCycleBegin (_monitor_loop iteration start): runs scan_network
  whenever _monitor_active holds, without consulting _scan_running;
- monitorCycleEnd: the monitor's scan_network call returns.
none marks an event that cannot occur in the given state. -/
def step (s : AppState) : Event → Option AppState
  | .onScan =>
    if s.scan_running then some { s with status := rejectionMsg }
    else some { s with scan_running := true,
                       in_flight := s.in_flight ++ [ScanSource.manual],
                       status := "Escaneando..." }
  | .scanDone =>
    if s.in_flight.contains ScanSource.manual then
      some { s with scan_running := false,
                    in_flight := s.in_flight.erase ScanSource.manual }
    else none
  | .monitorToggle =>
    if s.monitor_active then
      some { s with monitor_active := false, status := "Monitor detenido." }
    else
      some { s with monitor_active := true,
                    status := "Monitor activo — escaneo cada 5 min." }
  | .monitorCycleBegin =>
    if s.monitor_active && !(s.in_flight.contains ScanSource.monitor) then
      some { s with in_flight := s.in_flight ++ [ScanSource.monitor],
                    status := "🔄 Monitor: escaneando..." }
    else none
  | .monitorCycleEnd =>
    if s.in_flight.contains ScanSource.monitor then
      some { s with in_flight := s.in_flight.erase ScanSource.monitor }
    else none

/-- Run a sequence of events from a state. -/
def runTrace (events : List Event) (s : AppState) : Option AppState :=
  events.foldl (fun acc e => acc.bind (fun st => step st e)) (some s)

/-- Helper for stating hashrate properties: a MinerData carrying just a
hashrate reading (the other fields are irrelevant to hashrate_to_ths). -/
def dataWithHashrate (hr : Option HashRate) : MinerData :=
  { hashrate := hr, is_mining := .ok false, model := none, make := none,
    temperature_avg := none, pools := [] }

/-- A concrete device handle template for witnesses. -/
def mW : Miner :=
  { ip := "10.0.0.1", typeName := "AntMiner", get_data := .error "unused",
    reboot := .ok (), get_config := .ok { mining_mode := none },
    send_config := fun _ => .ok () }

/-- An inactive pool entry with no url, for the C5 example. -/
def poolOff : Pool := { url := none, user := none, active := some false, alive := none }

/-- Snapshot with pools [inactive, active url "A", inactive]. -/
def dEx1 : MinerData :=
  { hashrate := none, is_mining := .ok true, model := some "S19",
    make := some "AntMiner", temperature_avg := none,
    pools := [poolOff,
              { url := some "A", user := some "w1", active := some true,
                alive := some true },
              poolOff] }

/-- Snapshot with all-inactive pools [url "B", url "C"]. -/
def dEx2 : MinerData :=
  { hashrate := none, is_mining := .ok true, model := none, make := none,
    temperature_avg := none,
    pools := [{ url := some "B", user := some "wb", active := none, alive := none },
              { url := some "C", user := some "wc", active := none, alive := none }] }

/-- The all_pools entry produced for the active pool of dEx1. -/
def entA : PoolEntry :=
  { index := 1, url := "A", user := "w1", active := some true, alive := some true }

/-- Snapshot whose is_mining read raises. -/
def dUnreadable : MinerData :=
  { hashrate := none, is_mining := .error (), model := none, make := none,
    temperature_avg := none, pools := [] }

/-- Concrete five-device fleet for the reboot dispatch witness: devices 2
and 4 raise from reboot(). -/
def rebootFleet : List Miner :=
  [ { mW with ip := "10.0.0.1" },
    { mW with ip := "10.0.0.2", reboot := .error "timeout" },
    { mW with ip := "10.0.0.3" },
    { mW with ip := "10.0.0.4", reboot := .error "connection refused" },
    { mW with ip := "10.0.0.5" } ]

/-- A device whose configuration exposes no pool list and whose
send_config succeeds. -/
def noPoolsMiner : Miner :=
  { mW with ip := "10.0.0.9", typeName := "BraiinsOSMiner",
            get_config := .ok { mining_mode := none } }

/-- A device whose configuration exposes a pool list but whose
send_config raises. -/
def failSendMiner : Miner :=
  { mW with ip := "10.0.0.7",
            get_config := .ok { mining_mode := some { pools := some [] } },
            send_config := fun _ => .error "unsupported" }

/-- One well-formed pool entry for the pool-update witnesses. -/
def onePool : List PoolSpec :=
  [{ url := "stratum+tcp://pool.example:3333", user := "wallet.worker",
     password := "x" }]

/-- Two concrete handles for the scan-aggregation witness: the second
device's telemetry query raises. -/
def scanFleet : List Miner :=
  [ { mW with ip := "192.168.1.10", get_data := .ok dEx1 },
    { mW with ip := "192.168.1.11", get_data := .error "timeout" } ]

/-- A state with a manual scan in flight, the flag set and the monitor on. -/
def sBusy : AppState :=
  { scan_running := true, monitor_active := true,
    in_flight := [ScanSource.manual], status := "Escaneando..." }

theorem rowOfResult_ip (m : Miner) (res : Except String MinerData) :
    (rowOfResult m res).ip = m.ip := by
  cases res <;> rfl

theorem rowOfData_status (m : Miner) (d : MinerData) :
    (rowOfData m d).status =
      (match d.is_mining with
       | .ok b => if b then "Minando" else "Parado"
       | .error _ => "OK") := rfl

theorem rowOfData_ths (m : Miner) (d : MinerData) :
    (rowOfData m d).hashrate_ths = hashrate_to_ths d := rfl

theorem rowOfData_pool1_url (m : Miner) (d : MinerData) :
    (rowOfData m d).pool1_url = (poolFields d.pools).1 := rfl

theorem rowOfData_worker (m : Miner) (d : MinerData) :
    (rowOfData m d).worker = (poolFields d.pools).2.1 := rfl

/-- Claim C6: hashrate_to_ths multiplies the rate by the fixed
power-of-1000 factor selected by the uppercased unit (H/s by 1e-12, KH/s
by 1e-9, MH/s by 1e-6, GH/s by 1e-3, TH/s by 1.0, PH/s by 1e3), and a
rate with an unrecognized unit passes through with factor 1.0. -/
theorem hashrate_factor_table (r : ℚ) (u : String) :
    hashrate_to_ths (dataWithHashrate (some { rate := some r, unit := "H/s" })) = r * (1/1000000000000) ∧
    hashrate_to_ths (dataWithHashrate (some { rate := some r, unit := "KH/s" })) = r * (1/1000000000) ∧
    hashrate_to_ths (dataWithHashrate (some { rate := some r, unit := "MH/s" })) = r * (1/1000000) ∧
    hashrate_to_ths (dataWithHashrate (some { rate := some r, unit := "GH/s" })) = r * (1/1000) ∧
    hashrate_to_ths (dataWithHashrate (some { rate := some r, unit := "TH/s" })) = r * 1 ∧
    hashrate_to_ths (dataWithHashrate (some { rate := some r, unit := "PH/s" })) = r * 1000 ∧
    (pyUpper u ∉ ["H/S", "KH/S", "MH/S", "GH/S", "TH/S", "PH/S"] →
      hashrate_to_ths (dataWithHashrate (some { rate := some r, unit := u })) = r * 1) := by
  refine ⟨rfl, rfl, rfl, rfl, rfl, rfl, ?_⟩
  intro hu
  simp only [List.mem_cons, List.not_mem_nil, or_false, not_or] at hu
  obtain ⟨n1, n2, n3, n4, n5, n6⟩ := hu
  have e1 : (pyUpper u == "H/S") = false := beq_eq_false_iff_ne.mpr n1
  have e2 : (pyUpper u == "KH/S") = false := beq_eq_false_iff_ne.mpr n2
  have e3 : (pyUpper u == "MH/S") = false := beq_eq_false_iff_ne.mpr n3
  have e4 : (pyUpper u == "GH/S") = false := beq_eq_false_iff_ne.mpr n4
  have e5 : (pyUpper u == "TH/S") = false := beq_eq_false_iff_ne.mpr n5
  have e6 : (pyUpper u == "PH/S") = false := beq_eq_false_iff_ne.mpr n6
  have hnone : List.lookup (pyUpper u) factors = none := by
    simp [factors, List.lookup, e1, e2, e3, e4, e5, e6]
  show r * ((List.lookup (pyUpper u) factors).getD 1) = r * 1
  rw [hnone]
  rfl

/-- Witness for C6: an unrecognized unit string passes through with
factor 1.0. -/
theorem hashrate_factor_table_witness :
    hashrate_to_ths (dataWithHashrate (some { rate := some 7, unit := "Sol/s" })) = 7 * 1 :=
  (hashrate_factor_table 7 "Sol/s").2.2.2.2.2.2 (by decide)

/-- Claim C7: converting a TH/s value to each native unit of the fixed
table (dividing by that unit's factor) and normalizing back through
hashrate_to_ths reproduces the value exactly (rationals model the float
computation, so the float tolerance is met with exact equality). -/
theorem hashrate_roundtrip (v : ℚ) :
    hashrate_to_ths (dataWithHashrate (some { rate := some (v / (1/1000000000000)), unit := "H/s" })) = v ∧
    hashrate_to_ths (dataWithHashrate (some { rate := some (v / (1/1000000000)), unit := "KH/s" })) = v ∧
    hashrate_to_ths (dataWithHashrate (some { rate := some (v / (1/1000000)), unit := "MH/s" })) = v ∧
    hashrate_to_ths (dataWithHashrate (some { rate := some (v / (1/1000)), unit := "GH/s" })) = v ∧
    hashrate_to_ths (dataWithHashrate (some { rate := some (v / 1), unit := "TH/s" })) = v ∧
    hashrate_to_ths (dataWithHashrate (some { rate := some (v / 1000), unit := "PH/s" })) = v := by
  refine ⟨?_, ?_, ?_, ?_, ?_, ?_⟩
  · show v / (1/1000000000000) * (1/1000000000000) = v
    rw [div_mul_cancel₀]
    norm_num
  · show v / (1/1000000000) * (1/1000000000) = v
    rw [div_mul_cancel₀]
    norm_num
  · show v / (1/1000000) * (1/1000000) = v
    rw [div_mul_cancel₀]
    norm_num
  · show v / (1/1000) * (1/1000) = v
    rw [div_mul_cancel₀]
    norm_num
  · show v / 1 * 1 = v
    norm_num
  · show v / 1000 * 1000 = v
    rw [div_mul_cancel₀]
    norm_num

/-- Claim C4: row status derivation.  The code literals are the Spanish
UI strings: "Minando" is the spec's "mining", "Parado" is "stopped",
"Error" is "error", and the unreadable-flag literal is "OK" (the spec's
"unknown" slot).  The _update_table tag classification shows "Error" is
styled as an error while "OK" is not. -/
theorem status_derivation (m : Miner) (e : String) (d : MinerData) :
    (rowOfResult m (.error e)).status = "Error" ∧
    (d.is_mining = .ok true → (rowOfData m d).status = "Minando") ∧
    (d.is_mining = .ok false → (rowOfData m d).status = "Parado") ∧
    (d.is_mining = .error () → (rowOfData m d).status = "OK") ∧
    (∀ i : Nat,
      rowTag "Error" i = "error" ∧ rowTag "Minando" i = "mining" ∧
      rowTag "Parado" i = "stopped" ∧ rowTag "OK" i ≠ "error") := by
  refine ⟨rfl, ?_, ?_, ?_, ?_⟩
  · intro h; rw [rowOfData_status, h]; rfl
  · intro h; rw [rowOfData_status, h]; rfl
  · intro h; rw [rowOfData_status, h]
  · intro i
    refine ⟨rfl, rfl, rfl, ?_⟩
    have hOK : rowTag "OK" i = (if i % 2 == 0 then "even" else "odd") := rfl
    rw [hOK]
    cases hb : (i % 2 == 0) <;> simp [hb]

/-- Witness for C4: a concrete mining device and a concrete device whose
mining flag read raises. -/
theorem status_derivation_witness :
    (rowOfData mW dEx1).status = "Minando" ∧
    (rowOfData mW dUnreadable).status = "OK" :=
  ⟨(status_derivation mW "e" dEx1).2.1 rfl,
   (status_derivation mW "e" dUnreadable).2.2.2.1 rfl⟩

/-- Counterexample for C3: scan_network returns the very same value, the
empty row list, for a structural scan failure and for a successful scan
that found no devices; no scan-level error reaches the caller through the
return value. -/
theorem scan_error_empty_result :
    (scan_network "10.0.0.0/24" (Except.error "malformed range")).2 =
      (scan_network "10.0.0.0/24" (Except.ok [])).2 ∧
    (scan_network "10.0.0.0/24" (Except.error "malformed range")).2 = ([] : List MinerRow) :=
  ⟨rfl, rfl⟩

/-- Claim C3 as amended: both a structural failure and an empty discovery
produce an empty row list with no partial result; the two outcomes are
distinguishable only through the progress-callback messages ("Error al
escanear: ..." versus "No se encontraron miners."), not through the
returned rows. -/
theorem scan_failure_signal_only_progress (subnet e : String) :
    scan_network subnet (Except.error e) =
      (["Escaneando " ++ subnet ++ "...", "Error al escanear: " ++ e], []) ∧
    scan_network subnet (Except.ok []) =
      (["Escaneando " ++ subnet ++ "...", "No se encontraron miners."], []) ∧
    (scan_network "10.0.0.0/24" (Except.error "malformed range")).1 ≠
      (scan_network "10.0.0.0/24" (Except.ok [])).1 := by
  refine ⟨rfl, rfl, by decide⟩

/-- Claim C10: an absent telemetry snapshot, an absent hashrate field and
a malformed hashrate rate all normalize to 0.0 TH/s in the row, and the
fleet total of _update_table therefore counts such devices as
contributing zero. -/
theorem unknown_hashrate_zero (m : Miner) (e : String) (d : MinerData)
    (h : HashRate) (r : MinerRow) (rows : List MinerRow) :
    (rowOfResult m (.error e)).hashrate_ths = 0 ∧
    (d.hashrate = none → (rowOfData m d).hashrate_ths = 0) ∧
    (d.hashrate = some h → h.rate = none → (rowOfData m d).hashrate_ths = 0) ∧
    (r.hashrate_ths = 0 → total_ths (r :: rows) = total_ths rows) := by
  refine ⟨rfl, ?_, ?_, ?_⟩
  · intro hn; rw [rowOfData_ths]; simp [hashrate_to_ths, hn]
  · intro hs hr; rw [rowOfData_ths]; simp [hashrate_to_ths, hs, hr]
  · intro hz; simp [total_ths, hz]

/-- Witness for C10: a failed-fetch row contributes zero to the fleet
total. -/
theorem unknown_hashrate_zero_witness :
    (rowOfData mW (dataWithHashrate none)).hashrate_ths = 0 ∧
    total_ths (rowOfResult mW (.error "down") :: [rowOfData mW dEx1]) =
      total_ths [rowOfData mW dEx1] := by
  have h := unknown_hashrate_zero mW "down" (dataWithHashrate none)
    { rate := none, unit := "TH/s" } (rowOfResult mW (.error "down"))
    [rowOfData mW dEx1]
  exact ⟨h.2.1 rfl, h.2.2.2 h.1⟩

/-- Counterexample for C1: after starting the monitor and letting its
first cycle begin, a manual scan request is accepted (status becomes the
scanning message, not the rejection signal) and two scan pipelines are in
flight simultaneously — the monitor cycle never set _scan_running. -/
theorem monitor_scan_overlap_accepted :
    runTrace [Event.monitorToggle, Event.monitorCycleBegin, Event.onScan] appInit =
      some { scan_running := true, monitor_active := true,
             in_flight := [ScanSource.monitor, ScanSource.manual],
             status := "Escaneando..." } ∧
    (runTrace [Event.monitorToggle, Event.monitorCycleBegin, Event.onScan] appInit).map
        AppState.status ≠ some rejectionMsg ∧
    (runTrace [Event.monitorToggle, Event.monitorCycleBegin, Event.onScan] appInit).map
        (fun s => s.in_flight.length) = some 2 := by
  refine ⟨by decide, by decide, by decide⟩

/-- Claim C1 as amended: the shared _scan_running flag guards manual scans
only.  A manual scan request while the flag is set is rejected with the
rejection signal and not queued; when clear, it is accepted.  A monitor
cycle, however, begins whenever the monitor is active, regardless of the
flag, so a monitor-triggered scan and a manual scan can overlap. -/
theorem scan_flag_guards_manual_only (s : AppState) :
    (s.scan_running = true → step s Event.onScan = some { s with status := rejectionMsg }) ∧
    (s.scan_running = false → step s Event.onScan =
      some { s with scan_running := true,
                    in_flight := s.in_flight ++ [ScanSource.manual],
                    status := "Escaneando..." }) ∧
    (s.monitor_active = true → s.in_flight.contains ScanSource.monitor = false →
      step s Event.monitorCycleBegin =
        some { s with in_flight := s.in_flight ++ [ScanSource.monitor],
                      status := "🔄 Monitor: escaneando..." }) := by
  refine ⟨fun h => by simp [step, h], fun h => by simp [step, h], fun h1 h2 => ?_⟩
  have h2m : ScanSource.monitor ∉ s.in_flight := by
    intro hm
    have hcontains : s.in_flight.contains ScanSource.monitor = true := List.elem_iff.mpr hm
    rw [h2] at hcontains
    simp at hcontains
  simp [step]
  exact ⟨h1, h2m⟩

/-- Witness for C1's amended claim: in a state with a manual scan in
flight and the monitor active, a second manual scan is rejected while the
monitor cycle still begins. -/
theorem scan_flag_guards_manual_only_witness :
    step sBusy Event.onScan = some { sBusy with status := rejectionMsg } ∧
    step sBusy Event.monitorCycleBegin =
      some { sBusy with in_flight := [ScanSource.manual, ScanSource.monitor],
                        status := "🔄 Monitor: escaneando..." } := by
  have h := scan_flag_guards_manual_only sBusy
  exact ⟨h.1 rfl, (h.2.2 rfl (by decide)).trans (by decide)⟩

/-- Claim C2: for every input list of discovered handles, the telemetry
aggregation of scan_network produces exactly one row per handle, in input
order, each row being the projection of that handle's own query outcome —
failing queries yield that device's error row without omitting or
reordering sibling outcomes. -/
theorem scan_rows_one_per_handle (subnet : String)
    (scanResult : Except String (List Miner)) (miners : List Miner)
    (h : scanResult = .ok miners) :
    (scan_network subnet scanResult).2 =
      miners.map (fun m => rowOfResult m m.get_data) ∧
    (scan_network subnet scanResult).2.length = miners.length ∧
    (scan_network subnet scanResult).2.map MinerRow.ip = miners.map Miner.ip := by
  subst h
  have hrows : (scan_network subnet (Except.ok miners)).2 =
      miners.map (fun m => rowOfResult m m.get_data) := by
    cases miners with
    | nil => rfl
    | cons a t => rfl
  refine ⟨hrows, ?_, ?_⟩
  · rw [hrows, List.length_map]
  · rw [hrows, List.map_map]
    exact List.map_congr_left (fun m _ => rowOfResult_ip m m.get_data)

/-- Witness for C2: two handles, the second of which fails its telemetry
query, still produce two rows in input order. -/
theorem scan_rows_one_per_handle_witness :
    (scan_network "192.168.1.0/24" (Except.ok scanFleet)).2.length = 2 ∧
    (scan_network "192.168.1.0/24" (Except.ok scanFleet)).2.map MinerRow.ip =
      ["192.168.1.10", "192.168.1.11"] := by
  have h := scan_rows_one_per_handle "192.168.1.0/24" (Except.ok scanFleet) scanFleet rfl
  exact ⟨h.2.1.trans rfl, h.2.2.trans rfl⟩

/-- Claim C5: primary pool selection.  The first entry whose active flag
is explicitly true wins; with no active entry the first entry in list
order wins; with no pools both primary fields read the "N/A" sentinel
(the spec's "unavailable").  The two concrete examples of the claim are
included. -/
theorem primary_pool_selection (m : Miner) (d : MinerData) (ent : PoolEntry)
    (rest : List PoolEntry) :
    ((mkPoolEntries d.pools).find? isTruthyActive = some ent →
      (rowOfData m d).pool1_url = (if ent.url = "" then "N/A" else ent.url) ∧
      (rowOfData m d).worker = (if ent.user = "" then "N/A" else ent.user)) ∧
    ((mkPoolEntries d.pools).find? isTruthyActive = none →
      mkPoolEntries d.pools = ent :: rest →
      (rowOfData m d).pool1_url = (if ent.url = "" then "N/A" else ent.url) ∧
      (rowOfData m d).worker = (if ent.user = "" then "N/A" else ent.user)) ∧
    (d.pools = [] →
      (rowOfData m d).pool1_url = "N/A" ∧ (rowOfData m d).worker = "N/A") ∧
    (rowOfData m dEx1).pool1_url = "A" ∧
    (rowOfData m dEx2).pool1_url = "B" := by
  refine ⟨?_, ?_, ?_, rfl, rfl⟩
  · intro hf
    cases hp : d.pools with
    | nil =>
      rw [hp] at hf
      simp [mkPoolEntries] at hf
    | cons a t =>
      rw [hp] at hf
      constructor
      · rw [rowOfData_pool1_url, hp]
        simp [poolFields, pickActive, hf]
      · rw [rowOfData_worker, hp]
        simp [poolFields, pickActive, hf]
  · intro hf hcons
    cases hp : d.pools with
    | nil =>
      rw [hp] at hcons
      simp [mkPoolEntries] at hcons
    | cons a t =>
      rw [hp] at hf hcons
      rw [hcons] at hf
      constructor
      · rw [rowOfData_pool1_url, hp]
        simp [poolFields, pickActive, hf, hcons]
      · rw [rowOfData_worker, hp]
        simp [poolFields, pickActive, hf, hcons]
  · intro hp
    constructor
    · rw [rowOfData_pool1_url, hp]
      rfl
    · rw [rowOfData_worker, hp]
      rfl

/-- Witness for C5: in dEx1 the first explicitly active entry (url "A",
user "w1") supplies both primary fields. -/
theorem primary_pool_selection_witness :
    (rowOfData mW dEx1).pool1_url = "A" ∧ (rowOfData mW dEx1).worker = "w1" := by
  have h := (primary_pool_selection mW dEx1 entA []).1 rfl
  exact ⟨h.1.trans rfl, h.2.trans rfl⟩

theorem keys_map_replace (d : List (String × String)) (k v : String) :
    (d.map (fun p => if p.1 == k then (k, v) else p)).map Prod.fst =
      d.map Prod.fst := by
  rw [List.map_map]
  refine List.map_congr_left (fun p _ => ?_)
  cases hpk : (p.1 == k) with
  | true =>
    simp only [Function.comp_apply, hpk, if_true]
    exact (eq_of_beq hpk).symm
  | false =>
    have hne : p.1 ≠ k := beq_eq_false_iff_ne.mp hpk
    simp [Function.comp_apply, hpk, hne]

theorem mem_keys_dictInsert (d : List (String × String)) (k v a : String) :
    a ∈ (dictInsert d k v).map Prod.fst ↔ a = k ∨ a ∈ d.map Prod.fst := by
  unfold dictInsert
  split
  · rename_i hany
    rw [keys_map_replace]
    constructor
    · exact Or.inr
    · rintro (rfl | hmem)
      · obtain ⟨p, hp, hpk⟩ := List.any_eq_true.mp hany
        have hpa : p.1 = a := eq_of_beq hpk
        have hm := List.mem_map_of_mem Prod.fst hp
        rw [hpa] at hm
        exact hm
      · exact hmem
  · rw [List.map_append]
    simp [or_comm]

theorem keys_nodup_dictInsert (d : List (String × String)) (k v : String)
    (h : (d.map Prod.fst).Nodup) :
    ((dictInsert d k v).map Prod.fst).Nodup := by
  unfold dictInsert
  split
  · rw [keys_map_replace]
    exact h
  · rename_i hany
    rw [List.map_append, List.nodup_append]
    refine ⟨h, by simp, ?_⟩
    intro a ha hb
    simp at hb
    subst hb
    obtain ⟨p, hp, hpe⟩ := List.mem_map.mp ha
    exact hany (List.any_eq_true.mpr ⟨p, hp, beq_iff_eq.mpr hpe⟩)

theorem insFold_keys_nodup (f : Miner → String) :
    ∀ (miners : List Miner) (d : List (String × String)),
      (d.map Prod.fst).Nodup → ((insFold f d miners).map Prod.fst).Nodup := by
  intro miners
  induction miners with
  | nil => exact fun d h => h
  | cons m t ih =>
    exact fun d h => ih (dictInsert d m.ip (f m)) (keys_nodup_dictInsert d m.ip (f m) h)

theorem mem_keys_insFold_mono (f : Miner → String) :
    ∀ (miners : List Miner) (d : List (String × String)) (a : String),
      a ∈ d.map Prod.fst → a ∈ (insFold f d miners).map Prod.fst := by
  intro miners
  induction miners with
  | nil => exact fun d a h => h
  | cons m t ih =>
    exact fun d a h =>
      ih (dictInsert d m.ip (f m)) a
        ((mem_keys_dictInsert d m.ip (f m) a).mpr (Or.inr h))

theorem mem_keys_insFold (f : Miner → String) :
    ∀ (miners : List Miner) (d : List (String × String)) (m : Miner),
      m ∈ miners → m.ip ∈ (insFold f d miners).map Prod.fst := by
  intro miners
  induction miners with
  | nil =>
    intro d m h
    simp at h
  | cons a t ih =>
    intro d m h
    rcases List.mem_cons.mp h with rfl | hmem
    · exact mem_keys_insFold_mono f t (dictInsert d m.ip (f m)) m.ip
        ((mem_keys_dictInsert d m.ip (f m) m.ip).mpr (Or.inl rfl))
    · exact ih (dictInsert d a.ip (f a)) m hmem

theorem insFold_fresh (f : Miner → String) :
    ∀ (miners : List Miner) (d : List (String × String)),
      (∀ m ∈ miners, m.ip ∉ d.map Prod.fst) → (miners.map Miner.ip).Nodup →
      insFold f d miners = d ++ miners.map (fun m => (m.ip, f m)) := by
  intro miners
  induction miners with
  | nil =>
    intro d _ _
    simp [insFold]
  | cons m t ih =>
    intro d hfresh hnd
    have hmip : m.ip ∉ d.map Prod.fst := hfresh m (List.mem_cons_self m t)
    have hany : ¬ (d.any (fun p => p.1 == m.ip) = true) := by
      intro hc
      obtain ⟨p, hp, hpk⟩ := List.any_eq_true.mp hc
      have hpa : p.1 = m.ip := eq_of_beq hpk
      have hm := List.mem_map_of_mem Prod.fst hp
      rw [hpa] at hm
      exact hmip hm
    have hins : dictInsert d m.ip (f m) = d ++ [(m.ip, f m)] := by
      unfold dictInsert
      rw [if_neg hany]
    have hnd2 : (t.map Miner.ip).Nodup ∧ m.ip ∉ t.map Miner.ip := by
      rw [List.map_cons] at hnd
      have hc := List.nodup_cons.mp hnd
      exact ⟨hc.2, hc.1⟩
    have hfresh2 : ∀ x ∈ t, x.ip ∉ (d ++ [(m.ip, f m)]).map Prod.fst := by
      intro x hx
      rw [List.map_append]
      intro hc
      rcases List.mem_append.mp hc with hc1 | hc2
      · exact hfresh x (List.mem_cons_of_mem m hx) hc1
      · simp at hc2
        exact hnd2.2 (hc2 ▸ List.mem_map_of_mem Miner.ip hx)
    calc insFold f d (m :: t)
        = insFold f (d ++ [(m.ip, f m)]) t := by
          show insFold f (dictInsert d m.ip (f m)) t = _
          rw [hins]
      _ = (d ++ [(m.ip, f m)]) ++ t.map (fun x => (x.ip, f x)) :=
          ih (d ++ [(m.ip, f m)]) hfresh2 hnd2.1
      _ = d ++ (m :: t).map (fun x => (x.ip, f x)) := by
          rw [List.map_cons, List.append_assoc, List.singleton_append]

/-- Claim C8: reboot_miners returns a map with exactly one entry per
distinct targeted address (keys are duplicate-free and every targeted ip
is present), and when the addresses are distinct each device's entry is
"OK" on success and "Error: reason" on failure, in input order; the
embedding is total, so no exception escapes. -/
theorem reboot_outcomes (miners : List Miner) :
    ((reboot_miners miners).map Prod.fst).Nodup ∧
    (∀ m ∈ miners, m.ip ∈ (reboot_miners miners).map Prod.fst) ∧
    ((miners.map Miner.ip).Nodup →
      reboot_miners miners = miners.map (fun m => (m.ip, outcomeStr m.reboot))) := by
  have hdef : reboot_miners miners =
      insFold (fun m => outcomeStr m.reboot) [] miners := rfl
  refine ⟨?_, ?_, ?_⟩
  · rw [hdef]
    exact insFold_keys_nodup _ miners [] (by simp)
  · intro m hm
    rw [hdef]
    exact mem_keys_insFold _ miners [] m hm
  · intro hnd
    rw [hdef, insFold_fresh _ miners [] (by simp) hnd]
    simp

/-- Witness for C8: five distinct handles, two of which fail, yield a
five-entry map with three successes and the two captured reasons. -/
theorem reboot_outcomes_witness :
    reboot_miners rebootFleet =
      [("10.0.0.1", "OK"), ("10.0.0.2", "Error: timeout"), ("10.0.0.3", "OK"),
       ("10.0.0.4", "Error: connection refused"), ("10.0.0.5", "OK")] := by
  have h := (reboot_outcomes rebootFleet).2.2 (by decide)
  exact h.trans rfl

theorem updatedConfig_no_pools (cfg : Config) (pl : List PoolSpec)
    (h : exposesPools cfg = false) : updatedConfig cfg pl = cfg := by
  cases hmm : cfg.mining_mode with
  | none => simp [updatedConfig, hmm]
  | some mm =>
    cases hp : mm.pools with
    | none => simp [updatedConfig, hmm, hp]
    | some l =>
      exfalso
      simp [exposesPools, hmm, hp] at h

/-- Counterexample for C9: a device whose configuration exposes no pool
list gets the plain success outcome "OK" — the incompatibility is not
reflected in its entry of the returned map. -/
theorem send_pool_config_no_pools_reports_ok :
    send_pool_config [noPoolsMiner] onePool = [("10.0.0.9", "OK")] ∧
    sendOutcome noPoolsMiner onePool = "OK" := ⟨rfl, rfl⟩

/-- Claim C9 as amended: per-device isolation holds — with distinct
addresses the outcome map pairs each device with an outcome computed from
that device alone — but a device whose configuration shape exposes no
pool list has its configuration written back unmodified, so its own
outcome mirrors the write result ("OK" on success) instead of reflecting
the incompatibility. -/
theorem send_pool_config_isolated (miners : List Miner) (pools : List PoolSpec)
    (m : Miner) (cfg : Config) :
    ((send_pool_config miners pools).map Prod.fst).Nodup ∧
    ((miners.map Miner.ip).Nodup →
      send_pool_config miners pools =
        miners.map (fun x => (x.ip, sendOutcome x pools))) ∧
    (m.get_config = .ok cfg → exposesPools cfg = false →
      sendOutcome m pools = outcomeStr (m.send_config cfg)) := by
  have hdef : send_pool_config miners pools =
      insFold (fun x => sendOutcome x pools) [] miners := rfl
  refine ⟨?_, ?_, ?_⟩
  · rw [hdef]
    exact insFold_keys_nodup _ miners [] (by simp)
  · intro hnd
    rw [hdef, insFold_fresh _ miners [] (by simp) hnd]
    simp
  · intro hg hx
    simp only [sendOutcome, hg]
    rw [updatedConfig_no_pools cfg _ hx]
    cases hsc : m.send_config cfg <;> simp [outcomeStr, hsc]

/-- Witness for C9's amended claim: a no-pool-list device and a device
whose write fails produce independent outcomes, and the no-pool-list
device's outcome equals the bare result of writing its unmodified
config. -/
theorem send_pool_config_isolated_witness :
    send_pool_config [noPoolsMiner, failSendMiner] onePool =
      [("10.0.0.9", "OK"), ("10.0.0.7", "Error: unsupported")] ∧
    sendOutcome noPoolsMiner onePool =
      outcomeStr (noPoolsMiner.send_config { mining_mode := none }) := by
  have h := send_pool_config_isolated [noPoolsMiner, failSendMiner] onePool
    noPoolsMiner { mining_mode := none }
  exact ⟨(h.2.1 (by decide)).trans rfl, h.2.2 rfl rfl⟩

end MinerApp
